import Mathlib

/-!
# Verification of the protopal event-sourcing core (`src/protopal.ts`)

Shallow embedding of the orchestration engine of the protopal repository:
the `EventBus` class, the `dispatch` of `createDecider`, `createProjector`,
and `createProcessManager`.  Each definition is translated directly from
the TypeScript source; theorems at the end settle the specification
claims about that source.
-/

/- ============================================================
   Event Channel (`class EventBus`, protopal.ts lines 42-61)

   `listeners` is a JS `Set`, i.e. an insertion-ordered collection
   without duplicates; we model it as a `List Nat` of listener ids kept
   duplicate-free by `addSub` (JS `Set.add` is a no-op on a present
   element, otherwise appends).  `emit` is `listeners.forEach(l => l(value))`;
   JS `Set.forEach` iterates the LIVE set in insertion order: at each
   step the next callback is the first not-yet-visited element currently
   in the set, so elements added during iteration are visited and
   elements removed before their turn are skipped.  (The one corner this
   model elides is delete-then-re-add of an already visited element,
   which JS would visit again; no theorem below depends on it.)

   A listener's behaviour is an environment `env : Nat → Nat → List Eff`
   giving the side effects listener `i` performs on receiving value `v`;
   every invocation is additionally recorded in `log`.  Nested `emit`
   (a listener emitting on the same channel) recurses, so the recursion
   is fuelled. -/

/-- Side effects a listener may perform on the channel it is subscribed to:
subscribe another listener, unsubscribe a listener, or emit another value
on the same channel. -/
inductive Eff : Type where
  | subscribeId (i : Nat)
  | unsubscribeId (i : Nat)
  | reemit (v : Nat)
deriving DecidableEq, Repr

/-- Channel state: the ordered listener set and the log of listener
invocations `(listener id, value delivered)`, in call order. -/
structure BusSt : Type where
  subs : List Nat
  log : List (Nat × Nat)
deriving DecidableEq, Repr

/-- JS `Set.add`: append unless already present. -/
def addSub (subs : List Nat) (i : Nat) : List Nat :=
  if i ∈ subs then subs else subs ++ [i]

/-- Run a listener's effects in order; `emitFn` performs a nested
emission (the TypeScript `emit` is a plain synchronous call, so a
nested emission runs to completion inside the listener invocation). -/
def runEffsWith (emitFn : Nat → BusSt → BusSt) : List Eff → BusSt → BusSt
  | [], st => st
  | Eff.subscribeId j :: rest, st =>
      runEffsWith emitFn rest { st with subs := addSub st.subs j }
  | Eff.unsubscribeId j :: rest, st =>
      runEffsWith emitFn rest { st with subs := st.subs.erase j }
  | Eff.reemit w :: rest, st =>
      runEffsWith emitFn rest (emitFn w st)

/-- One emission in progress: `visited` are the listeners already called
during this emission; the next callee is the first listener in the live
set not yet visited (JS `Set.forEach`).  Fuel bounds listener visits and
emission nesting depth. -/
def emitGo (env : Nat → Nat → List Eff) : Nat → Nat → List Nat → BusSt → BusSt
  | 0, _, _, st => st
  | fuel + 1, v, visited, st =>
    match st.subs.find? (fun i => !(visited.contains i)) with
    | none => st
    | some i =>
      let st1 : BusSt := { st with log := st.log ++ [(i, v)] }
      let st2 := runEffsWith (fun w s => emitGo env fuel w [] s) (env i v) st1
      emitGo env fuel v (i :: visited) st2

/-- The method `EventBus.emit`: deliver `v` starting with an empty visited set. -/
def emitV (env : Nat → Nat → List Eff) (fuel v : Nat) (st : BusSt) : BusSt :=
  emitGo env fuel v [] st

/-- A delivery log projected to the delivered values, used to express
(non-)interleaving of two emissions on one channel. -/
def logValues (log : List (Nat × Nat)) : List Nat :=
  log.map Prod.snd

/-- The occurrences of each value in `vs` are contiguous: collapsing
adjacent duplicates leaves no duplicate.  This is "deliveries of two
values on one channel are never interleaved". -/
def valuesContiguous (vs : List Nat) : Bool :=
  decide (vs.destutter (· ≠ ·)).Nodup

/- ============================================================
   Decision Unit (`createDecider`, protopal.ts lines 130-185)

   `dispatch` is modelled as a total function from the pre-dispatch
   state and the command to the final state together with a log of
   observable actions.  Throwing TypeScript collaborators
   (`resolveContext`, `decide`, `evolve`, and a failing
   `commandSchema.safeParse`) are modelled with `Except`; the `catch`
   block of `dispatch` corresponds to the `.error` branches, and the
   totality of the model is the fact that no exception crosses the
   `dispatch` boundary.  `callCtx` / `callDecide` mark the call sites of
   `config.resolveContext` / `config.decide` (present iff the code
   reaches that call). -/

/-- What flows on a unit's event channel: a domain event from `decide`,
or the synthesized `CommandValidationFailed` rejection event (the code
casts it into the same channel), carrying the offending command's tag
(`(command as any).type` with fallback "unknown") and the structured error list. -/
inductive ChanEvent (E : Type) : Type where
  | domain (e : E)
  | validationFailed (commandTag : String) (errors : List String)
deriving DecidableEq, Repr

/-- Observable actions of one `dispatch` run, in execution order:
trace entries (`trace?.emit`), collaborator call markers, the state
write of `evolve`, and emissions on the unit's event channel
(`events.emit`). -/
inductive DAct (C S X E : Type) : Type where
  | traceCommand (c : C)
  | callCtx (c : C)
  | traceContext (c : C) (x : X)
  | callDecide (c : C)
  | traceEvent (e : ChanEvent E) (causedBy : C)
  | traceEvolve (e : E) (before after : S)
  | traceError (phase : String)
  | emitChan (e : ChanEvent E)
deriving DecidableEq, Repr

/-- The configuration of one decision unit (`DeciderConfig`), with
throwing collaborators modelled by `Except`.  `tagOf` reads the
command's `type` field; the empty string models an absent/falsy tag. -/
structure DeciderEnv (C S X E : Type) : Type where
  commandSchema : Option (C → Except (List String) Unit)
  tagOf : C → String
  resolveContext : C → Except String X
  decide : C → S → X → Except String (List E)
  evolve : S → E → Except String S

/-- The tag field read `(command as any).type`, falling back to "unknown". -/
def cmdTag {C S X E : Type} (env : DeciderEnv C S X E) (c : C) : String :=
  if env.tagOf c = "" then "unknown" else env.tagOf c

/-- The per-event loop of `dispatch` (protopal.ts lines 168-178): for
each event, trace it, evolve the state (a throw aborts the remaining
events via the surrounding `catch`, which logs phase "decide"), trace
the evolution, then publish the event on the unit's channel. -/
def processEvents {C S X E : Type} (env : DeciderEnv C S X E) (c : C) :
    S → List E → S × List (DAct C S X E)
  | s, [] => (s, [])
  | s, e :: rest =>
    match env.evolve s e with
    | .error _ => (s, [DAct.traceEvent (.domain e) c, DAct.traceError "decide"])
    | .ok s' =>
      ((processEvents env c s' rest).1,
       DAct.traceEvent (.domain e) c :: DAct.traceEvolve e s s' ::
         DAct.emitChan (.domain e) :: (processEvents env c s' rest).2)

/-- The tail of `dispatch` after a passed (or absent) schema check: resolve the
context, decide, then run the per-event loop; a throw in
`resolveContext` or `decide` lands in the `catch` block which traces an
error with phase "decide" and leaves the state untouched. -/
def dispatchMain {C S X E : Type} (env : DeciderEnv C S X E) (s0 : S) (c : C) :
    S × List (DAct C S X E) :=
  match env.resolveContext c with
  | .error _ => (s0, [DAct.callCtx c, DAct.traceError "decide"])
  | .ok ctx =>
    match env.decide c s0 ctx with
    | .error _ =>
        (s0, [DAct.callCtx c, DAct.traceContext c ctx, DAct.callDecide c,
              DAct.traceError "decide"])
    | .ok evs =>
      ((processEvents env c s0 evs).1,
       DAct.callCtx c :: DAct.traceContext c ctx :: DAct.callDecide c ::
         (processEvents env c s0 evs).2)

/-- The schema gate of `dispatch` (protopal.ts lines 142-158): on a
failed `safeParse`, synthesize the `CommandValidationFailed` event,
trace it, publish it on the unit's channel and stop. -/
def dispatchCore {C S X E : Type} (env : DeciderEnv C S X E) (s0 : S) (c : C) :
    S × List (DAct C S X E) :=
  match env.commandSchema with
  | none => dispatchMain env s0 c
  | some sch =>
    match sch c with
    | .ok _ => dispatchMain env s0 c
    | .error errs =>
      let ve : ChanEvent E := ChanEvent.validationFailed (cmdTag env c) errs
      (s0, [DAct.traceEvent ve c, DAct.emitChan ve])

/-- One full `dispatch` call: the initial command trace entry,
then the guarded pipeline. -/
def dispatch {C S X E : Type} (env : DeciderEnv C S X E) (s0 : S) (c : C) :
    S × List (DAct C S X E) :=
  ((dispatchCore env s0 c).1, DAct.traceCommand c :: (dispatchCore env s0 c).2)

/-- The events published on the unit's event channel during a run, in
order (`events.emit` calls). -/
def chanEmissions {C S X E : Type} (log : List (DAct C S X E)) : List (ChanEvent E) :=
  log.filterMap fun a =>
    match a with
    | DAct.emitChan e => some e
    | _ => none

/-- Whether an action is the `resolveContext` call site. -/
def isCallCtx {C S X E : Type} : DAct C S X E → Bool
  | DAct.callCtx _ => true
  | _ => false

/-- Whether an action is the `decide` call site. -/
def isCallDecide {C S X E : Type} : DAct C S X E → Bool
  | DAct.callDecide _ => true
  | _ => false

/-- Whether an action is an error trace entry. -/
def isErrorTrace {C S X E : Type} : DAct C S X E → Bool
  | DAct.traceError _ => true
  | _ => false

/-- The schema check of `dispatch` accepts the command (or no schema is
configured). -/
def validationPasses {C S X E : Type} (env : DeciderEnv C S X E) (c : C) : Bool :=
  match env.commandSchema with
  | none => true
  | some sch =>
    match sch c with
    | .ok _ => true
    | .error _ => false

/-- Fold `evolve` over an event list, stopping at the first failure
(the state the unit holds after the batch). -/
def foldEvolve {C S X E : Type} (env : DeciderEnv C S X E) : S → List E → S
  | s, [] => s
  | s, e :: rest =>
    match env.evolve s e with
    | .error _ => s
    | .ok s' => foldEvolve env s' rest

/-- All `evolve` calls along the fold succeed. -/
def evolvesOk {C S X E : Type} (env : DeciderEnv C S X E) : S → List E → Bool
  | _, [] => true
  | s, e :: rest =>
    match env.evolve s e with
    | .error _ => false
    | .ok s' => evolvesOk env s' rest

/-- The per-event alphabet used to state evolution/publication ordering. -/
inductive EvChanAct (E : Type) : Type where
  | evolveOf (e : E)
  | emitOf (e : E)
deriving DecidableEq, Repr

/-- Project a dispatch log onto evolution steps and channel publications
of domain events. -/
def evolveEmitSeq {C S X E : Type} (log : List (DAct C S X E)) : List (EvChanAct E) :=
  log.filterMap fun a =>
    match a with
    | DAct.traceEvolve e _ _ => some (EvChanAct.evolveOf e)
    | DAct.emitChan (ChanEvent.domain e) => some (EvChanAct.emitOf e)
    | _ => none

/-- The strict alternation evolve `E1`, emit `E1`, evolve `E2`, emit
`E2`, …: each event's evolution precedes its publication, which
precedes the next event's evolution. -/
def evolveEmitPattern {E : Type} : List E → List (EvChanAct E)
  | [] => []
  | e :: rest => EvChanAct.evolveOf e :: EvChanAct.emitOf e :: evolveEmitPattern rest

/- ============================================================
   Concurrent dispatches on one unit (protopal.ts lines 137-182)

   `dispatch` is an `async` function with exactly one suspension point,
   `await config.resolveContext(command)`; there is no queue or lock.
   A caller issuing several dispatches synchronously runs, per command
   and in call order, the synchronous prefix (the command trace and
   the schema gate — a validation failure publishes its rejection event
   right there and never suspends); each surviving command then waits
   for its context promise.  The JS event loop runs the continuations
   in promise-resolution order, and each continuation
   (decide → evolve/publish loop) has no further suspension point, so
   it runs atomically.  `order` is the promise-resolution order, as
   indices into the pending list; a failing `resolveContext` is
   modelled as a rejected promise. -/

/-- The synchronous prefix of one `dispatch` call: command trace plus
schema gate.  Returns the command iff it proceeds to the `await`. -/
def syncPhase {C S X E : Type} (env : DeciderEnv C S X E) (c : C) :
    Option C × List (DAct C S X E) :=
  match env.commandSchema with
  | none => (some c, [DAct.traceCommand c])
  | some sch =>
    match sch c with
    | .ok _ => (some c, [DAct.traceCommand c])
    | .error errs =>
      let ve : ChanEvent E := ChanEvent.validationFailed (cmdTag env c) errs
      (none, [DAct.traceCommand c, DAct.traceEvent ve c, DAct.emitChan ve])

/-- Run the synchronous prefixes of all dispatch calls, in call order;
collect the commands that reached their `await`. -/
def syncAll {C S X E : Type} (env : DeciderEnv C S X E) :
    List C → List C × List (DAct C S X E)
  | [] => ([], [])
  | c :: rest =>
    ((match (syncPhase env c).1 with
      | some c' => c' :: (syncAll env rest).1
      | none => (syncAll env rest).1),
     (syncPhase env c).2 ++ (syncAll env rest).2)

/-- Run the post-`await` continuations in promise-resolution order;
each continuation is `dispatchMain` run atomically on the then-current
state.  Out-of-range indices are skipped. -/
def resumePhase {C S X E : Type} (env : DeciderEnv C S X E) :
    S → List C → List Nat → S × List (DAct C S X E)
  | s, _, [] => (s, [])
  | s, pending, i :: rest =>
    match pending[i]? with
    | none => resumePhase env s pending rest
    | some c =>
      ((resumePhase env (dispatchMain env s c).1 pending rest).1,
       (dispatchMain env s c).2 ++
         (resumePhase env (dispatchMain env s c).1 pending rest).2)

/-- Several `dispatch` calls issued synchronously on one unit, with the
context promises resolving in order `order`. -/
def runConcurrent {C S X E : Type} (env : DeciderEnv C S X E) (s0 : S)
    (cmds : List C) (order : List Nat) : S × List (DAct C S X E) :=
  ((resumePhase env s0 (syncAll env cmds).1 order).1,
   (syncAll env cmds).2 ++ (resumePhase env s0 (syncAll env cmds).1 order).2)

/-- Dispatching a list of commands strictly one after the other (each
`dispatch` completing before the next is issued). -/
def runSequential {C S X E : Type} (env : DeciderEnv C S X E) :
    S → List C → S × List (DAct C S X E)
  | s, [] => (s, [])
  | s, c :: rest =>
    ((runSequential env (dispatch env s c).1 rest).1,
     (dispatch env s c).2 ++ (runSequential env (dispatch env s c).1 rest).2)

/- ============================================================
   Reaction Unit (`createProcessManager`, protopal.ts lines 233-259)

   The listener registered on the source unit's channel: bail out if
   `filter` rejects the event, otherwise compute `react(event)` (a
   throw is caught and traced, dispatching nothing), trace, then call
   the target unit's `dispatch` for each command in order. -/

/-- Observable actions of the process-manager listener on one event. -/
inductive PMAct (E C : Type) : Type where
  | tracePM (trigger : E) (cmds : List C)
  | dispatched (c : C)
  | traceError
deriving DecidableEq, Repr

/-- A process-manager configuration (`ProcessManagerConfig`), `react`
modelled with `Except` for a throwing reaction. -/
structure PMEnv (E C : Type) : Type where
  filter : E → Bool
  react : E → Except String (List C)

/-- The listener body of `createProcessManager`. -/
def pmHandle {E C : Type} (env : PMEnv E C) (e : E) : List (PMAct E C) :=
  if env.filter e then
    match env.react e with
    | .ok cmds => PMAct.tracePM e cmds :: cmds.map PMAct.dispatched
    | .error _ => [PMAct.traceError]
  else []

/-- The commands the listener dispatched to the target unit, in order. -/
def dispatchedCmds {E C : Type} (log : List (PMAct E C)) : List C :=
  log.filterMap fun a =>
    match a with
    | PMAct.dispatched c => some c
    | _ => none

/- ============================================================
   Read Model Builder (`createProjector`, protopal.ts lines 204-221)

   The listener registered on the source channel: fold the event into
   `readState` via `project`, tracing a projection entry; a throw is
   caught inside the listener and traced with phase "project".  The
   listener therefore never throws into `EventBus.emit` (which does not
   catch), so delivery to the remaining listeners continues. -/

/-- The state visible around a projector: the producing unit's write
state, the projector's read state, and the trace log (entries as
`kind:detail` strings). -/
structure SysState (S R : Type) : Type where
  unitState : S
  readState : R
  traceLog : List String
deriving DecidableEq, Repr

/-- The listener body of `createProjector` (total: it catches). -/
def projStep {S R E : Type} (project : R → E → Except String R) (name : String)
    (st : SysState S R) (e : E) : SysState S R :=
  match project st.readState e with
  | .ok r => { st with readState := r, traceLog := st.traceLog ++ ["projection:" ++ name] }
  | .error _ => { st with traceLog := st.traceLog ++ ["error:project"] }

/-- The projector listener as a channel listener; listeners in general
may throw (`Except`), and `EventBus.emit` does not catch, but this one
always returns `.ok`. -/
def projListener {S R E : Type} (project : R → E → Except String R) (name : String)
    (e : E) : SysState S R → Except String (SysState S R) :=
  fun st => .ok (projStep project name st e)

/-- Sequential delivery of one event to a listener list, as
`EventBus.emit` does: a listener exception propagates and aborts
delivery to the remaining listeners. -/
def deliverSeq {S R : Type} :
    List (SysState S R → Except String (SysState S R)) → SysState S R →
    Except String (SysState S R)
  | [], st => .ok st
  | h :: rest, st =>
    match h st with
    | .error err => .error err
    | .ok st' => deliverSeq rest st'

/- ============================================================
   Concrete decision units used to instantiate the theorems. -/

/-- A counter-style unit: no schema, commands are their own tags,
trivial context, `decide` emits one event carrying `state + 100` for
command `"a"` and `state + 1` otherwise, `evolve` replaces the state by
the event.  The emitted event thus records the state `decide` read. -/
def envCounter : DeciderEnv String Int Unit Int where
  commandSchema := none
  tagOf := fun c => c
  resolveContext := fun _ => .ok ()
  decide := fun c s _ => .ok [s + (if c = "a" then 100 else 1)]
  evolve := fun _ e => .ok e

/-- A unit that accumulates each event into the state; `decide` returns
the two events `[1, 2]`. -/
def envAccum : DeciderEnv String Int Unit Int where
  commandSchema := none
  tagOf := fun c => c
  resolveContext := fun _ => .ok ()
  decide := fun _ _ _ => .ok [1, 2]
  evolve := fun s e => .ok (s + e)

/-- A unit whose schema rejects every command with one structured error. -/
def envRejecting : DeciderEnv String Int Unit Int where
  commandSchema := some (fun _ => .error ["required field missing"])
  tagOf := fun c => c
  resolveContext := fun _ => .ok ()
  decide := fun _ _ _ => .ok []
  evolve := fun s _ => .ok s

/-- A unit whose context resolution throws. -/
def envCtxThrows : DeciderEnv String Int Unit Int where
  commandSchema := none
  tagOf := fun c => c
  resolveContext := fun _ => .error "network down"
  decide := fun _ _ _ => .ok []
  evolve := fun s _ => .ok s

/-- A unit whose `decide` throws. -/
def envDecideThrows : DeciderEnv String Int Unit Int where
  commandSchema := none
  tagOf := fun c => c
  resolveContext := fun _ => .ok ()
  decide := fun _ _ _ => .error "decide bug"
  evolve := fun s _ => .ok s

/-- A unit whose `decide` returns `[1, 2, 3]` but whose `evolve` throws
on event `2`. -/
def envEvolveThrows : DeciderEnv String Int Unit Int where
  commandSchema := none
  tagOf := fun c => c
  resolveContext := fun _ => .ok ()
  decide := fun _ _ _ => .ok [1, 2, 3]
  evolve := fun s e => if e = 2 then .error "unhandled event" else .ok (s + e)

/-- Listener behaviour where listener `0`, on receiving value `7`,
subscribes listener `1` mid-emission; everyone else is passive. -/
def envLateSub : Nat → Nat → List Eff :=
  fun i v => if i = 0 && v = 7 then [Eff.subscribeId 1] else []

/-- Listener behaviour where listener `0`, on receiving value `1`,
emits value `2` on the same channel; everyone else is passive. -/
def envReemit : Nat → Nat → List Eff :=
  fun i v => if i = 0 && v = 1 then [Eff.reemit 2] else []

/-- A process manager reacting to even events with two commands. -/
def envPM : PMEnv Int String where
  filter := fun e => e % 2 = 0
  react := fun e => .ok ["handle:" ++ toString e, "audit"]

/-- A projection that throws on event `5` and otherwise sums events. -/
def projSum : Int → Int → Except String Int :=
  fun r e => if e = 5 then .error "projection bug" else .ok (r + e)


/- ============================================================
   Helper lemmas about the event-channel model -/

/-- Searching with `find?` returns the head of the filtered list. -/
theorem find_eq_head_filter (p : Nat → Bool) (l : List Nat) :
    l.find? p = (l.filter p).head? := by
  induction l with
  | nil => rfl
  | cons a l ih =>
    cases hp : p a
    · rw [List.find?_cons_of_neg l (by simp [hp]), List.filter_cons_of_neg (by simp [hp])]
      exact ih
    · rw [List.find?_cons_of_pos l hp, List.filter_cons_of_pos hp]
      rfl

/-- Removing the head of a filtered duplicate-free list by strengthening
the filter. -/
theorem filter_and_not_eq (p : Nat → Bool) (i : Nat) (tl : List Nat) :
    ∀ l : List Nat, l.Nodup → l.filter p = i :: tl →
      l.filter (fun j => p j && !(decide (j = i))) = tl := by
  intro l
  induction l with
  | nil => intro _ h; simp at h
  | cons a l ih =>
    intro hnd hf
    obtain ⟨ha, hnd'⟩ := List.nodup_cons.mp hnd
    cases hp : p a
    · rw [List.filter_cons_of_neg (by simp [hp])] at hf
      rw [List.filter_cons_of_neg (by simp [hp])]
      exact ih hnd' hf
    · rw [List.filter_cons_of_pos hp] at hf
      injection hf with h1 h2
      subst h1
      rw [List.filter_cons_of_neg (by simp)]
      calc l.filter (fun j => p j && !(decide (j = a)))
          = l.filter p := by
            refine List.filter_congr ?_
            intro j hj
            have hne : j ≠ a := fun h => ha (h ▸ hj)
            simp [hne]
        _ = tl := h2

/-- Unfolding one listener visit of an emission in progress. -/
theorem emitGo_succ_some (env : Nat → Nat → List Eff) (fuel v : Nat)
    (visited : List Nat) (st : BusSt) (i : Nat)
    (hfind : st.subs.find? (fun j => !(visited.contains j)) = some i) :
    emitGo env (fuel + 1) v visited st =
      emitGo env fuel v (i :: visited)
        (runEffsWith (fun w s => emitGo env fuel w [] s) (env i v)
          { st with log := st.log ++ [(i, v)] }) := by
  simp only [emitGo]
  rw [hfind]

/-- An emission with no unvisited listener left does nothing. -/
theorem emitGo_succ_none (env : Nat → Nat → List Eff) (fuel v : Nat)
    (visited : List Nat) (st : BusSt)
    (hfind : st.subs.find? (fun j => !(visited.contains j)) = none) :
    emitGo env (fuel + 1) v visited st = st := by
  simp only [emitGo]
  rw [hfind]

/-- Emission with listeners that perform no effects on value `v`: the
not-yet-visited listeners are invoked exactly once each, in
registration order, and the listener set is unchanged. -/
theorem emitGo_pure (env : Nat → Nat → List Eff) (v : Nat) (hpure : ∀ i, env i v = []) :
    ∀ (fuel : Nat) (visited : List Nat) (st : BusSt), st.subs.Nodup →
      (st.subs.filter (fun i => !(visited.contains i))).length ≤ fuel →
      emitGo env fuel v visited st =
        { subs := st.subs,
          log := st.log ++
            (st.subs.filter (fun i => !(visited.contains i))).map (fun i => (i, v)) } := by
  intro fuel
  induction fuel with
  | zero =>
    intro visited st hnd hlen
    have h0 : st.subs.filter (fun i => !(visited.contains i)) = [] :=
      List.length_eq_zero.mp (Nat.le_zero.mp hlen)
    simp only [emitGo]
    rw [h0]
    cases st
    simp
  | succ fuel ih =>
    intro visited st hnd hlen
    have hfind := find_eq_head_filter (fun i => !(visited.contains i)) st.subs
    cases hfil : st.subs.filter (fun i => !(visited.contains i)) with
    | nil =>
      rw [hfil, List.head?_nil] at hfind
      rw [emitGo_succ_none env fuel v visited st hfind]
      cases st
      simp
    | cons i tl =>
      rw [hfil, List.head?_cons] at hfind
      have hpred : (fun j => !((i :: visited).contains j)) =
          (fun j => (!(visited.contains j)) && !(decide (j = i))) := by
        funext j
        simp [List.contains_cons, Bool.not_or, Bool.and_comm]
      have htl : st.subs.filter (fun j => !((i :: visited).contains j)) = tl := by
        rw [hpred]
        exact filter_and_not_eq (fun j => !(visited.contains j)) i tl st.subs hnd hfil
      have hlen' :
          (st.subs.filter (fun j => !((i :: visited).contains j))).length ≤ fuel := by
        rw [htl]
        rw [hfil] at hlen
        simpa using Nat.le_of_succ_le_succ (by simpa using hlen)
      have hrec := ih (i :: visited) ⟨st.subs, st.log ++ [(i, v)]⟩ hnd hlen'
      dsimp only at hrec
      rw [htl] at hrec
      rw [emitGo_succ_some env fuel v visited st i hfind, hpure i]
      rw [show runEffsWith (fun w s => emitGo env fuel w [] s) []
            (⟨st.subs, st.log ++ [(i, v)]⟩ : BusSt) =
          (⟨st.subs, st.log ++ [(i, v)]⟩ : BusSt) from rfl]
      rw [hrec]
      simp

/-- The always-true visited filter of a fresh emission. -/
theorem filter_unvisited_nil (l : List Nat) :
    l.filter (fun i => !(([] : List Nat).contains i)) = l := by
  simp

/-- Count of `(f, v)` pairs in a tagged invocation log. -/
theorem count_map_pair (v f : Nat) :
    ∀ l : List Nat, (l.map (fun i => (i, v))).count (f, v) = l.count f := by
  intro l
  induction l with
  | nil => rfl
  | cons a l ih =>
    by_cases h : a = f
    · subst h; simp [List.count_cons, ih]
    · simp [List.count_cons, ih, h, Prod.ext_iff]

/-- Adding via `Set.add` puts the element in the set. -/
theorem mem_addSub (subs : List Nat) (f : Nat) : f ∈ addSub subs f := by
  unfold addSub
  split
  · assumption
  · simp

/-- Adding an already present element is a no-op (JS `Set.add`). -/
theorem addSub_idem (subs : List Nat) (f : Nat) :
    addSub (addSub subs f) f = addSub subs f := by
  unfold addSub
  split
  · simp_all
  · simp

/-- Adding via `Set.add` preserves duplicate-freedom. -/
theorem addSub_nodup (subs : List Nat) (f : Nat) (hnd : subs.Nodup) :
    (addSub subs f).Nodup := by
  unfold addSub
  split
  · exact hnd
  · simp [List.nodup_append, hnd]
    intro hmem
    simp_all

/-- Emission over listeners that perform no channel effects on the emitted
value: every registered listener is invoked once, in registration order. -/
theorem emitV_pure (env : Nat → Nat → List Eff) (v fuel : Nat) (st : BusSt)
    (hpure : ∀ i, env i v = []) (hnd : st.subs.Nodup)
    (hfuel : st.subs.length ≤ fuel) :
    emitV env fuel v st =
      { subs := st.subs, log := st.log ++ st.subs.map (fun i => (i, v)) } := by
  have h := emitGo_pure env v hpure fuel [] st hnd
    (by rw [filter_unvisited_nil]; exact hfuel)
  rw [emitV, h, filter_unvisited_nil]

/- ============================================================
   Claim theorems: Event Channel (C6, C7, C10) -/

/-- C6 (amended): when no listener's callback modifies the channel's
subscription set or emits during the delivery of `v`, `emit` invokes
every listener registered when the emission starts, synchronously,
exactly once each, in registration order, and leaves the subscription
set unchanged.  Without that proviso the original snapshot clause fails:
the code iterates the live JS `Set`, so a listener registered during the
emission also receives the value. -/
theorem c6_emit_registration_order (env : Nat → Nat → List Eff) (v fuel : Nat)
    (st : BusSt) (hpure : ∀ i, env i v = []) (hnd : st.subs.Nodup)
    (hfuel : st.subs.length ≤ fuel) :
    emitV env fuel v st =
      { subs := st.subs, log := st.log ++ st.subs.map (fun i => (i, v)) } :=
  emitV_pure env v fuel st hpure hnd hfuel

/-- C6 witness: two passive listeners `[4, 2]` receive value 5 once
each, in registration order. -/
theorem c6_emit_registration_order_witness :
    (∀ i, (fun (_ _ : Nat) => ([] : List Eff)) i 5 = []) ∧
    ([4, 2] : List Nat).Nodup ∧ ([4, 2] : List Nat).length ≤ 3 ∧
    emitV (fun _ _ => []) 3 5 ⟨[4, 2], []⟩ = ⟨[4, 2], [(4, 5), (2, 5)]⟩ :=
  ⟨fun _ => rfl, by decide, by decide,
   c6_emit_registration_order (fun _ _ => []) 5 3 ⟨[4, 2], []⟩ (fun _ => rfl)
     (by decide) (by decide)⟩

/-- C6 counterexample: only listener 0 is registered when emission of
value 7 starts; its callback subscribes listener 1, and listener 1 is
nevertheless invoked with 7 during the same emission — `Set.forEach`
iterates the live set, refuting the claim's snapshot semantics. -/
theorem c6_snapshot_counterexample :
    (1, 7) ∈ (emitV envLateSub 10 7 ⟨[0], []⟩).log ∧ 1 ∉ ([0] : List Nat) := by
  decide

/-- C7 (amended): `EventBus.emit` is a plain synchronous call, so a
nested emission triggered by listener `i` during delivery of `v` is not
queued: it runs to completion inside the invocation of listener `i`, before
the delivery of `v` proceeds to the next listener (depth-first
reentrancy). -/
theorem c7_nested_emit_depth_first (env : Nat → Nat → List Eff) (fuel v w : Nat)
    (visited : List Nat) (st : BusSt) (i : Nat)
    (hfind : st.subs.find? (fun j => !(visited.contains j)) = some i)
    (heff : env i v = [Eff.reemit w]) :
    emitGo env (fuel + 1) v visited st =
      emitGo env fuel v (i :: visited)
        (emitGo env fuel w [] { st with log := st.log ++ [(i, v)] }) := by
  rw [emitGo_succ_some env fuel v visited st i hfind, heff]
  rfl

/-- C7 witness: listener 0 of `envReemit` re-emits value 2 during the
delivery of value 1; the nested emission runs inside its invocation. -/
theorem c7_nested_emit_depth_first_witness :
    (([0, 1] : List Nat).find? (fun j => !(([] : List Nat).contains j)) = some 0) ∧
    envReemit 0 1 = [Eff.reemit 2] ∧
    emitGo envReemit 9 1 [] ⟨[0, 1], []⟩ =
      emitGo envReemit 8 1 [0] (emitGo envReemit 8 2 [] ⟨[0, 1], [(0, 1)]⟩) :=
  ⟨by decide, by decide,
   c7_nested_emit_depth_first envReemit 8 1 2 [] ⟨[0, 1], []⟩ 0 (by decide) (by decide)⟩

/-- C7 counterexample: listeners `[0, 1]` where listener 0 re-emits
value 2 while value 1 is being delivered.  Delivery order is
`(0,1), (0,2), (1,2), (1,1)`: listener 1 receives value 2 before
value 1, so the two deliveries interleave — the nested emission was not
queued to run after the originating delivery completed. -/
theorem c7_serial_emission_counterexample :
    (emitV envReemit 16 1 ⟨[0, 1], []⟩).log = [(0, 1), (0, 2), (1, 2), (1, 1)] ∧
    valuesContiguous (logValues (emitV envReemit 16 1 ⟨[0, 1], []⟩).log) = false := by
  decide

/-- C10: re-subscribing an already subscribed listener `f` does not
register a second delivery (JS `Set.add` is a no-op), an emission still
invokes `f` exactly once, and the unsubscribe closure (both `subscribe`
calls return a closure deleting the same set entry `f`) removes `f`
entirely, after which emissions do not invoke it at all. -/
theorem c10_subscribe_idempotent (env : Nat → Nat → List Eff)
    (subs : List Nat) (f v fuel : Nat) (hnd : subs.Nodup)
    (hpure : ∀ i, env i v = []) (hfuel : subs.length + 1 ≤ fuel) :
    addSub (addSub subs f) f = addSub subs f ∧
    (emitV env fuel v ⟨addSub (addSub subs f) f, []⟩).log.count (f, v) = 1 ∧
    f ∉ (addSub subs f).erase f ∧
    (emitV env fuel v ⟨(addSub subs f).erase f, []⟩).log.count (f, v) = 0 := by
  have hnd1 : (addSub subs f).Nodup := addSub_nodup subs f hnd
  have hlen1 : (addSub subs f).length ≤ fuel := by
    unfold addSub
    split
    · exact Nat.le_trans (Nat.le_succ _) hfuel
    · simpa using hfuel
  have hnotmem : f ∉ (addSub subs f).erase f := by
    intro hmem
    exact absurd ((List.Nodup.mem_erase_iff hnd1).mp hmem).1 (by simp)
  refine ⟨addSub_idem subs f, ?_, hnotmem, ?_⟩
  · rw [addSub_idem subs f,
      emitV_pure env v fuel ⟨addSub subs f, []⟩ hpure hnd1 hlen1]
    simpa using (count_map_pair v f (addSub subs f)).trans
      (List.count_eq_one_of_mem hnd1 (mem_addSub subs f))
  · have hnd2 : ((addSub subs f).erase f).Nodup := hnd1.erase f
    have hlen2 : ((addSub subs f).erase f).length ≤ fuel :=
      Nat.le_trans ((addSub subs f).erase_sublist f).length_le hlen1
    rw [emitV_pure env v fuel ⟨(addSub subs f).erase f, []⟩ hpure hnd2 hlen2]
    simpa using (count_map_pair v f ((addSub subs f).erase f)).trans
      (List.count_eq_zero.mpr hnotmem)

/-- C10 witness: subscribing listener 9 twice on a channel already
holding listener 3, emitting value 4, then unsubscribing 9. -/
theorem c10_subscribe_idempotent_witness :
    ([3] : List Nat).Nodup ∧ (∀ i, (fun (_ _ : Nat) => ([] : List Eff)) i 4 = []) ∧
    ([3] : List Nat).length + 1 ≤ 2 ∧
    (addSub (addSub [3] 9) 9 = addSub [3] 9 ∧
     (emitV (fun _ _ => []) 2 4 ⟨addSub (addSub [3] 9) 9, []⟩).log.count (9, 4) = 1 ∧
     9 ∉ (addSub [3] 9).erase 9 ∧
     (emitV (fun _ _ => []) 2 4 ⟨(addSub [3] 9).erase 9, []⟩).log.count (9, 4) = 0) :=
  ⟨by decide, fun _ => rfl, by decide,
   c10_subscribe_idempotent (fun _ _ => []) [3] 9 4 2 (by decide) (fun _ => rfl)
     (by decide)⟩

/- ============================================================
   Helper lemmas about the dispatch pipeline -/

/-- The per-event loop on an all-good batch: the final state is the
left fold of `evolve`, the channel emissions are exactly the batch in
order, and evolutions and publications strictly alternate. -/
theorem processEvents_ok {C S X E : Type} (env : DeciderEnv C S X E) (c : C) :
    ∀ (evs : List E) (s : S), evolvesOk env s evs = true →
      (processEvents env c s evs).1 = foldEvolve env s evs ∧
      chanEmissions (processEvents env c s evs).2 = evs.map ChanEvent.domain ∧
      evolveEmitSeq (processEvents env c s evs).2 = evolveEmitPattern evs := by
  intro evs
  induction evs with
  | nil => intro s _; exact ⟨rfl, rfl, rfl⟩
  | cons e rest ih =>
    intro s h
    simp only [evolvesOk] at h
    cases hev : env.evolve s e with
    | error e2 =>
      rw [hev] at h
      exact absurd h (by simp)
    | ok s' =>
      rw [hev] at h
      obtain ⟨h1, h2, h3⟩ := ih s' h
      refine ⟨?_, ?_, ?_⟩
      · simp [processEvents, foldEvolve, hev, h1]
      · simp [processEvents, hev, chanEmissions, List.filterMap_cons] at h2 ⊢
        exact h2
      · simp [processEvents, hev, evolveEmitSeq, evolveEmitPattern,
          List.filterMap_cons] at h3 ⊢
        exact h3

/-- The per-event loop when `evolve` throws on event `badEv` after the
prefix `goodEvs` succeeded: the state stops at the fold over the prefix,
only the prefix is published, and an error trace entry is logged. -/
theorem processEvents_err {C S X E : Type} (env : DeciderEnv C S X E) (c : C) :
    ∀ (goodEvs : List E) (s : S) (badEv : E) (restEvs : List E) (err : String),
      evolvesOk env s goodEvs = true →
      env.evolve (foldEvolve env s goodEvs) badEv = .error err →
      (processEvents env c s (goodEvs ++ badEv :: restEvs)).1 =
        foldEvolve env s goodEvs ∧
      chanEmissions (processEvents env c s (goodEvs ++ badEv :: restEvs)).2 =
        goodEvs.map ChanEvent.domain ∧
      (processEvents env c s (goodEvs ++ badEv :: restEvs)).2.any isErrorTrace = true := by
  intro goodEvs
  induction goodEvs with
  | nil =>
    intro s badEv restEvs err _ hbad
    simp only [foldEvolve] at hbad
    simp [processEvents, hbad, chanEmissions, isErrorTrace, foldEvolve,
      List.filterMap_cons]
  | cons e rest ih =>
    intro s badEv restEvs err h hbad
    simp only [evolvesOk] at h
    cases hev : env.evolve s e with
    | error e2 =>
      rw [hev] at h
      exact absurd h (by simp)
    | ok s' =>
      rw [hev] at h
      have hbad' : env.evolve (foldEvolve env s' rest) badEv = .error err := by
        simpa [foldEvolve, hev] using hbad
      obtain ⟨h1, h2, h3⟩ := ih s' badEv restEvs err h hbad'
      refine ⟨?_, ?_, ?_⟩
      · simp [processEvents, foldEvolve, hev, h1]
      · simp [processEvents, hev, chanEmissions, List.filterMap_cons] at h2 ⊢
        exact h2
      · simp [processEvents, hev, isErrorTrace, List.any_cons] at h3 ⊢
        exact h3

/-- A command that passes the schema gate proceeds to the main pipeline. -/
theorem dispatchCore_eq_main {C S X E : Type} (env : DeciderEnv C S X E)
    (s0 : S) (c : C) (hval : validationPasses env c = true) :
    dispatchCore env s0 c = dispatchMain env s0 c := by
  unfold dispatchCore
  unfold validationPasses at hval
  cases hs : env.commandSchema with
  | none => rfl
  | some sch =>
    rw [hs] at hval
    cases hc : sch c with
    | ok u => simp [hc]
    | error errs => simp [hc] at hval

/- ============================================================
   Claim theorems: Decision Unit (C1, C3, C4, C5) -/

/-- C1: for a command that passes validation, whose context resolution,
decision and evolutions all succeed, `dispatch` ends in the state
obtained by folding `evolve` over the decided events, in order, from the
pre-dispatch state; the unit's channel carries exactly those events,
once each, in that order; and each event's evolution is applied before
that event is published and before the next event is evolved. -/
theorem c1_dispatch_fold_publish {C S X E : Type} (env : DeciderEnv C S X E)
    (s0 : S) (c : C) (ctx : X) (evs : List E)
    (hval : validationPasses env c = true)
    (hctx : env.resolveContext c = .ok ctx)
    (hdec : env.decide c s0 ctx = .ok evs)
    (hev : evolvesOk env s0 evs = true) :
    (dispatch env s0 c).1 = foldEvolve env s0 evs ∧
    chanEmissions (dispatch env s0 c).2 = evs.map ChanEvent.domain ∧
    evolveEmitSeq (dispatch env s0 c).2 = evolveEmitPattern evs := by
  obtain ⟨h1, h2, h3⟩ := processEvents_ok env c evs s0 hev
  have hcore := dispatchCore_eq_main env s0 c hval
  refine ⟨?_, ?_, ?_⟩
  · simp [dispatch, hcore, dispatchMain, hctx, hdec, h1]
  · simp only [dispatch, hcore, dispatchMain, hctx, hdec]
    simpa [chanEmissions, List.filterMap_cons] using h2
  · simp only [dispatch, hcore, dispatchMain, hctx, hdec]
    simpa [evolveEmitSeq, List.filterMap_cons] using h3

/-- C1 witness: `envAccum` decides `[1, 2]` from state 0 and folds to 3. -/
theorem c1_dispatch_fold_publish_witness :
    validationPasses envAccum "inc" = true ∧
    envAccum.resolveContext "inc" = .ok () ∧
    envAccum.decide "inc" 0 () = .ok [1, 2] ∧
    evolvesOk envAccum 0 [1, 2] = true ∧
    ((dispatch envAccum 0 "inc").1 = foldEvolve envAccum 0 [1, 2] ∧
     chanEmissions (dispatch envAccum 0 "inc").2 = [1, 2].map ChanEvent.domain ∧
     evolveEmitSeq (dispatch envAccum 0 "inc").2 = evolveEmitPattern [1, 2]) :=
  ⟨rfl, rfl, rfl, rfl,
   c1_dispatch_fold_publish envAccum 0 "inc" () [1, 2] rfl rfl rfl rfl⟩

/-- C3: when the configured schema rejects the command, `dispatch`
publishes exactly one `CommandValidationFailed` event carrying the
command's tag and the structured error list, leaves the state unchanged,
and calls neither `resolveContext` nor `decide`. -/
theorem c3_validation_rejection {C S X E : Type} (env : DeciderEnv C S X E)
    (s0 : S) (c : C) (sch : C → Except (List String) Unit) (errs : List String)
    (hsch : env.commandSchema = some sch) (hfail : sch c = .error errs)
    (htag : env.tagOf c ≠ "") :
    (dispatch env s0 c).1 = s0 ∧
    chanEmissions (dispatch env s0 c).2 =
      [ChanEvent.validationFailed (env.tagOf c) errs] ∧
    (dispatch env s0 c).2.all (fun a => !(isCallCtx a)) = true ∧
    (dispatch env s0 c).2.all (fun a => !(isCallDecide a)) = true := by
  refine ⟨?_, ?_, ?_, ?_⟩ <;>
    simp [dispatch, dispatchCore, hsch, hfail, cmdTag, htag, chanEmissions,
      isCallCtx, isCallDecide, List.filterMap_cons, List.all_cons]

/-- C3 witness: `envRejecting` rejects command "AddItem". -/
theorem c3_validation_rejection_witness :
    envRejecting.commandSchema = some (fun _ => .error ["required field missing"]) ∧
    (fun (_ : String) => (.error ["required field missing"] :
      Except (List String) Unit)) "AddItem" = .error ["required field missing"] ∧
    envRejecting.tagOf "AddItem" ≠ "" ∧
    ((dispatch envRejecting 0 "AddItem").1 = 0 ∧
     chanEmissions (dispatch envRejecting 0 "AddItem").2 =
       [ChanEvent.validationFailed (envRejecting.tagOf "AddItem")
         ["required field missing"]] ∧
     (dispatch envRejecting 0 "AddItem").2.all (fun a => !(isCallCtx a)) = true ∧
     (dispatch envRejecting 0 "AddItem").2.all (fun a => !(isCallDecide a)) = true) :=
  ⟨rfl, rfl, by decide,
   c3_validation_rejection envRejecting 0 "AddItem"
     (fun _ => .error ["required field missing"]) ["required field missing"]
     rfl rfl (by decide)⟩

/-- C4: when `resolveContext` throws, or `decide` throws, the state is
unchanged, nothing is published on the unit's channel, and an error
trace entry is recorded; `dispatch` itself is total (the exception is
swallowed by its catch block and never reaches the caller). -/
theorem c4_throw_isolated {C S X E : Type} (env : DeciderEnv C S X E)
    (s0 : S) (c : C)
    (hval : validationPasses env c = true)
    (hthrow : (∃ err, env.resolveContext c = .error err) ∨
      (∃ ctx err, env.resolveContext c = .ok ctx ∧ env.decide c s0 ctx = .error err)) :
    (dispatch env s0 c).1 = s0 ∧
    chanEmissions (dispatch env s0 c).2 = [] ∧
    (dispatch env s0 c).2.any isErrorTrace = true := by
  have hcore := dispatchCore_eq_main env s0 c hval
  rcases hthrow with ⟨err, herr⟩ | ⟨ctx, err, hctx, hdec⟩
  · refine ⟨?_, ?_, ?_⟩ <;>
      simp [dispatch, hcore, dispatchMain, herr, chanEmissions, isErrorTrace,
        List.filterMap_cons, List.any_cons]
  · refine ⟨?_, ?_, ?_⟩ <;>
      simp [dispatch, hcore, dispatchMain, hctx, hdec, chanEmissions,
        isErrorTrace, List.filterMap_cons, List.any_cons]

/-- C4 witness: `envCtxThrows` fails context resolution for command "c". -/
theorem c4_throw_isolated_witness :
    validationPasses envCtxThrows "c" = true ∧
    envCtxThrows.resolveContext "c" = .error "network down" ∧
    ((dispatch envCtxThrows 0 "c").1 = 0 ∧
     chanEmissions (dispatch envCtxThrows 0 "c").2 = [] ∧
     (dispatch envCtxThrows 0 "c").2.any isErrorTrace = true) :=
  ⟨rfl, rfl,
   c4_throw_isolated envCtxThrows 0 "c" rfl (Or.inl ⟨"network down", rfl⟩)⟩

/-- C5: when `decide` returns a batch and `evolve` throws on event
`badEv` after the prefix `goodEvs` evolved successfully, processing
halts: the final state is the fold over `goodEvs`, exactly the events
of `goodEvs` were published (in order; `badEv` and the rest are not),
and an error trace entry is recorded. -/
theorem c5_evolve_throw_halts {C S X E : Type} (env : DeciderEnv C S X E)
    (s0 : S) (c : C) (ctx : X) (goodEvs : List E) (badEv : E) (restEvs : List E)
    (err : String)
    (hval : validationPasses env c = true)
    (hctx : env.resolveContext c = .ok ctx)
    (hdec : env.decide c s0 ctx = .ok (goodEvs ++ badEv :: restEvs))
    (hgood : evolvesOk env s0 goodEvs = true)
    (hbad : env.evolve (foldEvolve env s0 goodEvs) badEv = .error err) :
    (dispatch env s0 c).1 = foldEvolve env s0 goodEvs ∧
    chanEmissions (dispatch env s0 c).2 = goodEvs.map ChanEvent.domain ∧
    (dispatch env s0 c).2.any isErrorTrace = true := by
  obtain ⟨h1, h2, h3⟩ :=
    processEvents_err env c goodEvs s0 badEv restEvs err hgood hbad
  have hcore := dispatchCore_eq_main env s0 c hval
  refine ⟨?_, ?_, ?_⟩
  · simp [dispatch, hcore, dispatchMain, hctx, hdec, h1]
  · simp only [dispatch, hcore, dispatchMain, hctx, hdec]
    simpa [chanEmissions, List.filterMap_cons] using h2
  · simp only [dispatch, hcore, dispatchMain, hctx, hdec]
    simpa [isErrorTrace, List.any_cons] using h3

/-- C5 witness: `envEvolveThrows` decides `[1, 2, 3]`, and `evolve`
throws on event 2; only event 1 is folded and published. -/
theorem c5_evolve_throw_halts_witness :
    validationPasses envEvolveThrows "c" = true ∧
    envEvolveThrows.resolveContext "c" = .ok () ∧
    envEvolveThrows.decide "c" 0 () = .ok ([1] ++ 2 :: [3]) ∧
    evolvesOk envEvolveThrows 0 [1] = true ∧
    envEvolveThrows.evolve (foldEvolve envEvolveThrows 0 [1]) 2 =
      .error "unhandled event" ∧
    ((dispatch envEvolveThrows 0 "c").1 = foldEvolve envEvolveThrows 0 [1] ∧
     chanEmissions (dispatch envEvolveThrows 0 "c").2 = [1].map ChanEvent.domain ∧
     (dispatch envEvolveThrows 0 "c").2.any isErrorTrace = true) :=
  ⟨rfl, rfl, rfl, rfl, rfl,
   c5_evolve_throw_halts envEvolveThrows 0 "c" () [1] 2 [3] "unhandled event"
     rfl rfl rfl rfl rfl⟩

/- ============================================================
   Helper lemmas about concurrent dispatches -/

/-- The projection `chanEmissions` distributes over concatenation of logs. -/
theorem chanEmissions_append {C S X E : Type} (l1 l2 : List (DAct C S X E)) :
    chanEmissions (l1 ++ l2) = chanEmissions l1 ++ chanEmissions l2 :=
  List.filterMap_append l1 l2 _

/-- Command trace entries emit nothing on the unit's channel. -/
theorem chanEmissions_traceCommands {C S X E : Type} (cmds : List C) :
    chanEmissions (cmds.map (fun c => (DAct.traceCommand c : DAct C S X E))) = [] := by
  induction cmds with
  | nil => rfl
  | cons c rest ih => simp [chanEmissions, List.filterMap_cons, ih]

/-- With no schema configured, the synchronous phase of each dispatch
call only records the command trace, and every command reaches its
`await`. -/
theorem syncAll_no_schema {C S X E : Type} (env : DeciderEnv C S X E)
    (h : env.commandSchema = none) :
    ∀ cmds : List C,
      syncAll env cmds = (cmds, cmds.map (fun c => DAct.traceCommand c)) := by
  intro cmds
  induction cmds with
  | nil => rfl
  | cons c rest ih => simp [syncAll, syncPhase, h, ih]

/-- Resuming pending continuations in order `order` is the sequential
run of the commands picked by `order`, up to the missing command trace
entries (which emit nothing). -/
theorem resume_eq_sequential {C S X E : Type} (env : DeciderEnv C S X E)
    (h : env.commandSchema = none) (cmds : List C) :
    ∀ (order : List Nat) (s : S),
      (resumePhase env s cmds order).1 =
        (runSequential env s (order.filterMap (fun i => cmds[i]?))).1 ∧
      chanEmissions (resumePhase env s cmds order).2 =
        chanEmissions (runSequential env s (order.filterMap (fun i => cmds[i]?))).2 := by
  intro order
  induction order with
  | nil => intro s; exact ⟨rfl, rfl⟩
  | cons i rest ih =>
    intro s
    cases hc : cmds[i]? with
    | none => simpa [resumePhase, hc, List.filterMap_cons] using ih s
    | some c =>
      have hd1 : (dispatch env s c).1 = (dispatchMain env s c).1 := by
        simp [dispatch, dispatchCore, h]
      have hd2 : (dispatch env s c).2 =
          DAct.traceCommand c :: (dispatchMain env s c).2 := by
        simp [dispatch, dispatchCore, h]
      obtain ⟨ih1, ih2⟩ := ih (dispatchMain env s c).1
      refine ⟨?_, ?_⟩
      · simp [resumePhase, hc, List.filterMap_cons, runSequential, hd1, ih1]
      · simp only [resumePhase, hc, List.filterMap_cons, runSequential, hd1, hd2]
        simp only [chanEmissions, List.filterMap_append, List.filterMap_cons] at ih2 ⊢
        simp [ih2]

/- ============================================================
   Claim theorems: per-unit dispatch ordering (C2) -/

/-- C2 (amended): `dispatch` is not queued per unit — a second command
whose context promise resolves first is decided and evolved before the
first command (see the counterexample) — but each command's
decide→evolve→publish continuation has no suspension point and runs
atomically, so concurrently issued dispatches behave exactly like
dispatching the same commands sequentially in promise-resolution order:
final state and published event sequence coincide, and in particular the
two commands' event productions never interleave. -/
theorem c2_resolution_order_semantics {C S X E : Type} (env : DeciderEnv C S X E)
    (s0 : S) (cmds : List C) (order : List Nat)
    (hschema : env.commandSchema = none) :
    (runConcurrent env s0 cmds order).1 =
      (runSequential env s0 (order.filterMap (fun i => cmds[i]?))).1 ∧
    chanEmissions (runConcurrent env s0 cmds order).2 =
      chanEmissions (runSequential env s0 (order.filterMap (fun i => cmds[i]?))).2 := by
  obtain ⟨h1, h2⟩ := resume_eq_sequential env hschema cmds order s0
  have hs := syncAll_no_schema env hschema cmds
  constructor
  · simp [runConcurrent, hs, h1]
  · simp only [runConcurrent, hs]
    rw [chanEmissions_append, chanEmissions_traceCommands]
    simpa using h2

/-- C2 witness: commands "a", "b" on `envCounter`, where the context of
"b" resolves first, behave like the sequential run of "b" then "a". -/
theorem c2_resolution_order_semantics_witness :
    envCounter.commandSchema = none ∧
    ((runConcurrent envCounter 0 ["a", "b"] [1, 0]).1 =
       (runSequential envCounter 0
         (([1, 0] : List Nat).filterMap (fun i => ["a", "b"][i]?))).1 ∧
     chanEmissions (runConcurrent envCounter 0 ["a", "b"] [1, 0]).2 =
       chanEmissions (runSequential envCounter 0
         (([1, 0] : List Nat).filterMap (fun i => ["a", "b"][i]?))).2) :=
  ⟨rfl, c2_resolution_order_semantics envCounter 0 ["a", "b"] [1, 0] rfl⟩

/-- C2 counterexample: "a" then "b" are dispatched on `envCounter`
while "a" still awaits its context; the promise of "b" resolves first
(resolution order `[1, 0]`).  In the resulting action log the `decide`
call for "b" precedes the one for "a", and the event published by "b" is
`1 = 0 + 1` — computed from the pre-dispatch state 0, not from the
state the events of "a" would have produced (its own event shows `101`).
The second dispatch was therefore not queued behind the first: its
decision and evolution did not wait for the first command's event
sequence. -/
theorem c2_no_serialization_counterexample :
    DAct.callDecide "a" ∈ (runConcurrent envCounter 0 ["a", "b"] [1, 0]).2 ∧
    List.indexOf (DAct.callDecide "b")
        (runConcurrent envCounter 0 ["a", "b"] [1, 0]).2 <
      List.indexOf (DAct.callDecide "a")
        (runConcurrent envCounter 0 ["a", "b"] [1, 0]).2 ∧
    chanEmissions (runConcurrent envCounter 0 ["a", "b"] [1, 0]).2 =
      [ChanEvent.domain 1, ChanEvent.domain 101] := by
  decide

/- ============================================================
   Claim theorems: Reaction Unit (C8) and Read Model Builder (C9) -/

/-- Extracting the dispatched commands from a pure dispatch block. -/
theorem dispatchedCmds_map {E C : Type} (cmds : List C) :
    dispatchedCmds (cmds.map (fun c => (PMAct.dispatched c : PMAct E C))) = cmds := by
  induction cmds with
  | nil => rfl
  | cons c rest ih => simpa [dispatchedCmds, List.filterMap_cons] using ih

/-- C8: for an event on the source unit's channel, the process-manager
listener dispatches nothing to the target when the filter rejects it,
and dispatches exactly the commands returned by `react`, in the order
returned, when the filter accepts it. -/
theorem c8_reaction_dispatches {E C : Type} (env : PMEnv E C) (e : E) :
    (env.filter e = false → dispatchedCmds (pmHandle env e) = []) ∧
    ∀ cmds : List C, env.filter e = true → env.react e = .ok cmds →
      dispatchedCmds (pmHandle env e) = cmds := by
  constructor
  · intro h
    simp [pmHandle, h, dispatchedCmds]
  · intro cmds hf hr
    have hmap : dispatchedCmds (cmds.map (fun c => (PMAct.dispatched c : PMAct E C))) =
        cmds := dispatchedCmds_map cmds
    simp only [dispatchedCmds, List.filterMap_cons] at hmap
    simp [pmHandle, hf, hr, dispatchedCmds, List.filterMap_cons, hmap]

/-- C8 witness: `envPM` ignores the odd event 3 and dispatches the two
commands of `react` for the even event 4, in order. -/
theorem c8_reaction_dispatches_witness :
    (envPM.filter 3 = false ∧ dispatchedCmds (pmHandle envPM 3) = []) ∧
    (envPM.filter 4 = true ∧ envPM.react 4 = .ok ["handle:4", "audit"] ∧
     dispatchedCmds (pmHandle envPM 4) = ["handle:4", "audit"]) :=
  ⟨⟨by decide, (c8_reaction_dispatches envPM 3).1 (by decide)⟩,
   ⟨by decide, rfl,
    (c8_reaction_dispatches envPM 4).2 ["handle:4", "audit"] (by decide) rfl⟩⟩

/-- C9: when `project` throws on an event, the projector listener
catches it: the listener returns normally (no exception reaches
`EventBus.emit`), the read state is unchanged, the producing unit's
write state is untouched, an error trace entry with phase "project" is
appended, and delivery proceeds to every remaining listener on the
channel. -/
theorem c9_projection_fault_isolated {S R E : Type}
    (project : R → E → Except String R) (name : String) (e : E)
    (st : SysState S R) (err : String)
    (rest : List (SysState S R → Except String (SysState S R)))
    (hfail : project st.readState e = .error err) :
    projListener project name e st = .ok (projStep project name st e) ∧
    (projStep project name st e).readState = st.readState ∧
    (projStep project name st e).unitState = st.unitState ∧
    (projStep project name st e).traceLog = st.traceLog ++ ["error:project"] ∧
    deliverSeq (projListener project name e :: rest) st =
      deliverSeq rest (projStep project name st e) := by
  refine ⟨rfl, ?_, ?_, ?_, ?_⟩ <;>
    simp [projStep, projListener, hfail, deliverSeq]

/-- C9 witness: `projSum` throws on event 5; read state 0 and unit
state 7 survive, the error is traced, and the next listener runs. -/
theorem c9_projection_fault_isolated_witness :
    projSum (0 : Int) 5 = .error "projection bug" ∧
    (projListener projSum "sum" 5 (⟨(7 : Int), (0 : Int), []⟩ : SysState Int Int) =
       .ok (projStep projSum "sum" ⟨7, 0, []⟩ 5) ∧
     (projStep projSum "sum" (⟨7, 0, []⟩ : SysState Int Int) 5).readState = 0 ∧
     (projStep projSum "sum" (⟨7, 0, []⟩ : SysState Int Int) 5).unitState = 7 ∧
     (projStep projSum "sum" (⟨7, 0, []⟩ : SysState Int Int) 5).traceLog =
       [] ++ ["error:project"] ∧
     deliverSeq [projListener projSum "sum" 5, fun st => .ok st]
         (⟨7, 0, []⟩ : SysState Int Int) =
       deliverSeq [fun st => .ok st]
         (projStep projSum "sum" (⟨7, 0, []⟩ : SysState Int Int) 5)) :=
  ⟨rfl,
   c9_projection_fault_isolated projSum "sum" 5 ⟨7, 0, []⟩ "projection bug"
     [fun st => .ok st] rfl⟩
